import Mathlib

/-!
Verification of an operational-transformation (OT) engine consisting of three
operation models:

* `Lib` (Tier A, `src/lib.rs`): single-unit operations `Insert(position, byte)`,
  `Delete(position)`, `Noop` over a byte-vector document, with `apply` and a
  pairwise `transform`.
* `SingleOp` (Tier B, `src/single_op.rs`): Tier A plus an `observedDeletes`
  count carried on `Insert`.
* `CompositeOp` (Tier C, `src/composite_op.rs`): chunked operations, i.e.
  sequences of `Skip`/`Insert`/`Delete` steps consumed against a cursor.

Documents are `Vec<u8>` in the source; we model them as `List Nat` (byte values
are opaque payloads, no byte arithmetic ever occurs, and every concrete value we
use fits in `u8`).  Rust panics (out-of-bounds `Vec::insert`/`Vec::remove`/
`drain`/`copy_within`) are modelled by `Option`: `none` is the
`IndexOutOfRange` failure of the specification.
-/

namespace OT

/-- Byte values (`u8` in the source) are opaque payloads; no arithmetic is done
on them, so they are modelled as `Nat`. -/
abbrev Byte := Nat

/-- `pub type Doc = Vec<u8>;` -/
abbrev Doc := List Byte

/-- `pub enum Side { Left, Right }`, the tie-break selector shared by all
three modules. -/
inductive Side where
  | Left : Side
  | Right : Side
deriving DecidableEq, Repr

/-! ## Tier A: `src/lib.rs` -/

namespace Lib

/-- `pub enum Op { Insert(usize, u8), Delete(usize), Noop }` -/
inductive Op where
  | Insert : Nat → Byte → Op
  | Delete : Nat → Op
  | Noop : Op
deriving DecidableEq, Repr

/-- `pub fn apply(doc: &mut Doc, op: &Op)` of lib.rs.
`Insert(index, c)` is `doc.insert(index, c)` (panics when `index > doc.len()`);
`Delete(index)` is `doc.remove(index)` (panics when `index >= doc.len()`);
the panic is modelled as `none`. -/
def apply (doc : Doc) (op : Op) : Option Doc :=
  match op with
  | .Insert index c => if index ≤ doc.length then some (doc.insertIdx index c) else none
  | .Delete index => if index < doc.length then some (doc.eraseIdx index) else none
  | .Noop => some doc

/-- `pub fn transform(op1: &Op, op2: &Op, side: Side) -> Op` of lib.rs,
translated clause for clause (`index2.cmp(&index)` is `compare index2 index`). -/
def transform (op1 op2 : Op) (side : Side) : Op :=
  match op1 with
  | .Insert index c =>
      let newIndex :=
        match op2 with
        | .Insert index2 _ =>
            match compare index2 index, side with
            | .lt, _ => index + 1
            | .eq, .Left => index
            | .eq, .Right => index + 1
            | .gt, _ => index
        | .Delete index2 => if index2 < index then index - 1 else index
        | .Noop => index
      .Insert newIndex c
  | .Delete index =>
      match op2 with
      | .Insert index2 _ => .Delete (if index2 ≤ index then index + 1 else index)
      | .Delete index2 =>
          match compare index2 index with
          | .lt => .Delete (index - 1)
          | .eq => .Noop
          | .gt => .Delete index
      | .Noop => .Delete index
  | .Noop => .Noop

/-- Validity of an operation against a document, as the property oracle's
`valid_op_for` generates them: insert positions in `0..=doc.len()`, delete
positions in `0..doc.len()`. -/
def valid (doc : Doc) : Op → Prop
  | .Insert index _ => index ≤ doc.length
  | .Delete index => index < doc.length
  | .Noop => True

instance (doc : Doc) : (op : Op) → Decidable (valid doc op)
  | .Insert _ _ => inferInstanceAs (Decidable (_ ≤ _))
  | .Delete _ => inferInstanceAs (Decidable (_ < _))
  | .Noop => inferInstanceAs (Decidable True)

end Lib

/-! ## Tier B: `src/single_op.rs` -/

namespace SingleOp

/-- `pub enum Op { Insert(usize, usize, u8), Delete(usize), Noop }`:
`Insert(position, observedDeletes, byte)`. -/
inductive Op where
  | Insert : Nat → Nat → Byte → Op
  | Delete : Nat → Op
  | Noop : Op
deriving DecidableEq, Repr

/-- `apply` of single_op.rs; the `observedDeletes` field is ignored. -/
def apply (doc : Doc) (op : Op) : Option Doc :=
  match op with
  | .Insert index _ c => if index ≤ doc.length then some (doc.insertIdx index c) else none
  | .Delete index => if index < doc.length then some (doc.eraseIdx index) else none
  | .Noop => some doc

/-- `transform` of single_op.rs.  The Insert/Insert case compares
`index2 + num_deletes_2` with `index + num_deletes`; the Insert/Delete case
increments `num_deletes` when the delete position is strictly smaller. -/
def transform (op1 op2 : Op) (side : Side) : Op :=
  match op1 with
  | .Insert index numDeletes c =>
      match op2 with
      | .Insert index2 numDeletes2 _ =>
          let newIndex :=
            match compare (index2 + numDeletes2) (index + numDeletes), side with
            | .lt, _ => index + 1
            | .eq, .Left => index
            | .eq, .Right => index + 1
            | .gt, _ => index
          .Insert newIndex numDeletes c
      | .Delete index2 =>
          if index2 < index then .Insert (index - 1) (numDeletes + 1) c
          else .Insert index numDeletes c
      | .Noop => .Insert index numDeletes c
  | .Delete index =>
      match op2 with
      | .Insert index2 _ _ => .Delete (if index2 ≤ index then index + 1 else index)
      | .Delete index2 =>
          match compare index2 index with
          | .lt => .Delete (index - 1)
          | .eq => .Noop
          | .gt => .Delete index
      | .Noop => .Delete index
  | .Noop => .Noop

/-- Position-bounds validity against a document (the `valid_op_for` generator of
single_op.rs draws insert positions from `0..=doc.len()` and delete positions
from `0..doc.len()`). -/
def valid (doc : Doc) : Op → Prop
  | .Insert index _ _ => index ≤ doc.length
  | .Delete index => index < doc.length
  | .Noop => True

instance (doc : Doc) : (op : Op) → Decidable (valid doc op)
  | .Insert _ _ _ => inferInstanceAs (Decidable (_ ≤ _))
  | .Delete _ => inferInstanceAs (Decidable (_ < _))
  | .Noop => inferInstanceAs (Decidable True)

end SingleOp

/-! ## Tier C: `src/composite_op.rs` -/

namespace CompositeOp

/-- `pub enum Step { Skip(usize), Insert(Chunk), Delete(usize) }` with
`Chunk = Vec<u8>`; an operation is a `Vec<Step>`. -/
inductive Step where
  | Skip : Nat → Step
  | Insert : List Byte → Step
  | Delete : Nat → Step
deriving DecidableEq, Repr

/-- The loop body of `apply` in composite_op.rs, with the running cursor
`index` made explicit.  `Skip(n)` performs `index += n` (no check).
`Insert(s)` resizes, `copy_within(index..old_doc_len, index + s.len())` and
`copy_from_slice` — a splice at `index`, panicking when `index > doc.len()` —
then `index += s.len()`.  `Delete(n)` is `doc.drain(index..(index + n))`
(panicking when `index + n > doc.len()`) followed by `index += n`.
Panics are modelled as `none`. -/
def applyGo : Doc → Nat → List Step → Option Doc
  | doc, _, [] => some doc
  | doc, index, .Skip n :: rest => applyGo doc (index + n) rest
  | doc, index, .Insert s :: rest =>
      if index ≤ doc.length then
        applyGo (doc.take index ++ s ++ doc.drop index) (index + s.length) rest
      else none
  | doc, index, .Delete n :: rest =>
      if index + n ≤ doc.length then
        applyGo (doc.take index ++ doc.drop (index + n)) (index + n) rest
      else none

/-- `pub fn apply(doc: &mut Doc, op: &[Step])` of composite_op.rs: the cursor
starts at 0. -/
def apply (doc : Doc) (op : List Step) : Option Doc := applyGo doc 0 op

/-- The exact success condition of `applyGo`: every `Insert` step's cursor and
every `Delete` step's range lies within the current document.  `Skip` steps are
unchecked, mirroring the code. -/
def stepsOk : Doc → Nat → List Step → Bool
  | _, _, [] => true
  | doc, index, .Skip n :: rest => stepsOk doc (index + n) rest
  | doc, index, .Insert s :: rest =>
      decide (index ≤ doc.length) &&
        stepsOk (doc.take index ++ s ++ doc.drop index) (index + s.length) rest
  | doc, index, .Delete n :: rest =>
      decide (index + n ≤ doc.length) &&
        stepsOk (doc.take index ++ doc.drop (index + n)) (index + n) rest

/-- The specification's in-bounds condition (§3, §7): no step may reference an
offset beyond the current document, including `Skip` steps, whose target cursor
must stay within bounds. -/
def inBounds : Doc → Nat → List Step → Bool
  | _, _, [] => true
  | doc, index, .Skip n :: rest => decide (index + n ≤ doc.length) && inBounds doc (index + n) rest
  | doc, index, .Insert s :: rest =>
      decide (index ≤ doc.length) &&
        inBounds (doc.take index ++ s ++ doc.drop index) (index + s.length) rest
  | doc, index, .Delete n :: rest =>
      decide (index + n ≤ doc.length) &&
        inBounds (doc.take index ++ doc.drop (index + n)) (index + n) rest

/-- The base-document length implied by a chunked operation's step lengths:
`Skip` and `Delete` consume base-document bytes, `Insert` consumes none
(spec §3, §4.3). -/
def baseLen : List Step → Nat
  | [] => 0
  | .Skip n :: rest => n + baseLen rest
  | .Insert _ :: rest => baseLen rest
  | .Delete n :: rest => n + baseLen rest

/-- Modelled from the spec: the chunked-operation transform algorithm is absent
from the source (`transform` in src/composite_op.rs is a stub returning
`vec![]`, marked `// TODO`), so this definition follows the contract stated in
§4.3 of the specification: walk both operations in lockstep by base-document
offset; split whichever of the two current steps extends further in offset
terms so both operands agree on a common sub-range boundary; on each aligned
sub-range apply the Tier A case rule (`Skip` = no-op over every covered
position, `Insert` = insert at the start of the range, `Delete` = delete the
covered range), emitting `op1`'s contribution; `side` resolves the tie only
when both operands insert at the same aligned offset.  Zero-length steps are
consumed without effect.  Each operand's step lengths imply a base-document
length (`baseLen`); when one operand still has base-consuming steps
(`Skip`/`Delete`) after the other operand's implied document has ended, its
step lengths are inconsistent with the common base document — e.g. a delete
step overruns the remaining document length implied by the preceding steps —
and the transform fails: `none` models the `MalformedOperation` error.
The result is `op1` rebased to apply after `op2`. -/
def transform : List Step → List Step → Side → Option (List Step)
  | [], [], _ => some []
  | [], .Skip n :: b, side => if n = 0 then transform [] b side else none
  | [], .Delete n :: b, side => if n = 0 then transform [] b side else none
  | [], .Insert t :: b, side => (transform [] b side).map (fun r => .Skip t.length :: r)
  | .Skip m :: a, [], side => if m = 0 then transform a [] side else none
  | .Delete m :: a, [], side => if m = 0 then transform a [] side else none
  | .Insert s :: a, [], side => (transform a [] side).map (fun r => .Insert s :: r)
  | .Insert s :: a, .Insert t :: b, .Left =>
      (transform a (.Insert t :: b) .Left).map (fun r => .Insert s :: r)
  | .Insert s :: a, .Insert t :: b, .Right =>
      (transform (.Insert s :: a) b .Right).map (fun r => .Skip t.length :: r)
  | .Insert s :: a, .Skip n :: b, side =>
      (transform a (.Skip n :: b) side).map (fun r => .Insert s :: r)
  | .Insert s :: a, .Delete n :: b, side =>
      (transform a (.Delete n :: b) side).map (fun r => .Insert s :: r)
  | .Skip m :: a, .Insert t :: b, side =>
      (transform (.Skip m :: a) b side).map (fun r => .Skip t.length :: r)
  | .Delete m :: a, .Insert t :: b, side =>
      (transform (.Delete m :: a) b side).map (fun r => .Skip t.length :: r)
  | .Skip m :: a, .Skip n :: b, side =>
      if m < n then (transform a (.Skip (n - m) :: b) side).map (fun r => .Skip m :: r)
      else if n < m then (transform (.Skip (m - n) :: a) b side).map (fun r => .Skip n :: r)
      else (transform a b side).map (fun r => .Skip m :: r)
  | .Skip m :: a, .Delete n :: b, side =>
      if m < n then transform a (.Delete (n - m) :: b) side
      else if n < m then transform (.Skip (m - n) :: a) b side
      else transform a b side
  | .Delete m :: a, .Skip n :: b, side =>
      if m < n then (transform a (.Skip (n - m) :: b) side).map (fun r => .Delete m :: r)
      else if n < m then (transform (.Delete (m - n) :: a) b side).map (fun r => .Delete n :: r)
      else (transform a b side).map (fun r => .Delete m :: r)
  | .Delete m :: a, .Delete n :: b, side =>
      if m < n then transform a (.Delete (n - m) :: b) side
      else if n < m then transform (.Delete (m - n) :: a) b side
      else transform a b side
termination_by a b _ => a.length + b.length
decreasing_by all_goals (simp only [List.length_cons]; omega)

/-- One normalization step: push a step onto an already-normalized sequence,
dropping it when zero-length and coalescing it with an adjacent step of the
same kind. -/
def consStep : Step → List Step → List Step
  | .Skip 0, acc => acc
  | .Skip (m + 1), .Skip n :: acc => .Skip (m + 1 + n) :: acc
  | .Skip (m + 1), [] => [.Skip (m + 1)]
  | .Skip (m + 1), .Insert t :: acc => .Skip (m + 1) :: .Insert t :: acc
  | .Skip (m + 1), .Delete n :: acc => .Skip (m + 1) :: .Delete n :: acc
  | .Insert [], acc => acc
  | .Insert (c :: s), .Insert t :: acc => .Insert (c :: s ++ t) :: acc
  | .Insert (c :: s), [] => [.Insert (c :: s)]
  | .Insert (c :: s), .Skip n :: acc => .Insert (c :: s) :: .Skip n :: acc
  | .Insert (c :: s), .Delete n :: acc => .Insert (c :: s) :: .Delete n :: acc
  | .Delete 0, acc => acc
  | .Delete (m + 1), .Delete n :: acc => .Delete (m + 1 + n) :: acc
  | .Delete (m + 1), [] => [.Delete (m + 1)]
  | .Delete (m + 1), .Skip n :: acc => .Delete (m + 1) :: .Skip n :: acc
  | .Delete (m + 1), .Insert t :: acc => .Delete (m + 1) :: .Insert t :: acc

/-- Normalization of a step sequence: drop zero-length steps and coalesce
adjacent steps of the same kind.  The spec (§4.3) calls this a normalization
pass, not a correctness requirement; results of the chunked transform are
compared up to this normalization. -/
def norm : List Step → List Step
  | [] => []
  | s :: rest => consStep s (norm rest)

/-- The transform followed by normalization of the result; only used to state
and prove the walk lemmas compactly. -/
def nt (a b : List Step) (side : Side) : Option (List Step) :=
  (transform a b side).map norm

/-- A single-unit Tier A operation restated as a chunked step sequence spanning
a base document of length `L` (spec §8: "restated as a single step"): the
insert or delete step at offset `p`, surrounded by the skips covering the rest
of the document. -/
def encode (op : Lib.Op) (L : Nat) : List Step :=
  match op with
  | .Insert p c => [.Skip p, .Insert [c], .Skip (L - p)]
  | .Delete p => [.Skip p, .Delete 1, .Skip (L - 1 - p)]
  | .Noop => [.Skip L]

/-- Length of a document of length `L` after applying a Tier A operation. -/
def resultLen (L : Nat) : Lib.Op → Nat
  | .Insert _ _ => L + 1
  | .Delete _ => L - 1
  | .Noop => L

end CompositeOp

/-- Erasure of the Tier B `observedDeletes` field, giving the corresponding
Tier A operation. -/
def erase : SingleOp.Op → Lib.Op
  | .Insert p _ c => .Insert p c
  | .Delete p => .Delete p
  | .Noop => .Noop

/-- The `observedDeletes` field of a Tier B operation (0 for non-inserts). -/
def observed : SingleOp.Op → Nat
  | .Insert _ d _ => d
  | _ => 0

/-- A splice: replace the `del` elements starting at offset `i` of `l` with the
segment `ins`.  `Vec::insert(i, c)` is `splice l i 0 [c]`, `Vec::remove(i)` is
`splice l i 1 []`; used to reason uniformly about document edits. -/
def splice (l : List Byte) (i del : Nat) (ins : List Byte) : List Byte :=
  l.take i ++ ins ++ l.drop (i + del)

/-! ## Splice lemmas -/

theorem splice_length (l : List Byte) (i del : Nat) (ins : List Byte)
    (h : i + del ≤ l.length) :
    (splice l i del ins).length = l.length + ins.length - del := by
  simp [splice]
  omega

theorem insertIdx_eq_splice (l : List Byte) (i : Nat) (a : Byte) (h : i ≤ l.length) :
    l.insertIdx i a = splice l i 0 [a] := by
  unfold splice
  rw [Nat.add_zero]
  induction i generalizing l with
  | zero => simp
  | succ i ih =>
      cases l with
      | nil => simp at h
      | cons x xs =>
          simp only [List.insertIdx_succ_cons, List.take_succ_cons, List.drop_succ_cons,
            List.cons_append]
          rw [ih xs (by simpa using h)]

theorem eraseIdx_eq_splice (l : List Byte) (i : Nat) :
    l.eraseIdx i = splice l i 1 [] := by
  simp [splice, List.eraseIdx_eq_take_drop_succ]

theorem apply_Insert_splice (doc : Doc) (ix : Nat) (c : Byte) (h : ix ≤ doc.length) :
    Lib.apply doc (.Insert ix c) = some (splice doc ix 0 [c]) := by
  simp [Lib.apply, h, insertIdx_eq_splice doc ix c h]

theorem apply_Delete_splice (doc : Doc) (ix : Nat) (h : ix < doc.length) :
    Lib.apply doc (.Delete ix) = some (splice doc ix 1 []) := by
  simp [Lib.apply, h, eraseIdx_eq_splice doc ix]

/-- Two splices of the same base document commute when the lower one (at `i`,
removing `di` elements) ends at or before the upper one (at `j`, removing `dj`
elements) begins: performing the upper splice first and then the lower one at
its original offset gives the same document as performing the lower splice
first and then the upper one at its shifted offset `j - di + si.length`. -/
theorem splice_splice_comm (D si sj : List Byte) (i di j dj : Nat)
    (h1 : i + di ≤ j) (h2 : j + dj ≤ D.length) :
    splice (splice D j dj sj) i di si =
      splice (splice D i di si) (j - di + si.length) dj sj := by
  have hiD : i ≤ D.length := by omega
  have hlenTj : (D.take j).length = j := by simp; omega
  have hlenTi : (D.take i).length = i := by simp; omega
  have hL : splice (splice D j dj sj) i di si =
      D.take i ++ (si ++ ((D.drop (i + di)).take (j - (i + di)) ++ (sj ++ D.drop (j + dj)))) := by
    simp only [splice, List.append_assoc]
    rw [List.take_append_of_le_length (show i ≤ (D.take j).length by rw [hlenTj]; omega)]
    rw [List.take_take, Nat.min_eq_left (by omega : i ≤ j)]
    rw [List.drop_append_of_le_length (show i + di ≤ (D.take j).length by rw [hlenTj]; omega)]
    rw [List.drop_take]
  have hR : splice (splice D i di si) (j - di + si.length) dj sj =
      D.take i ++ (si ++ ((D.drop (i + di)).take (j - (i + di)) ++ (sj ++ D.drop (j + dj)))) := by
    simp only [splice, List.append_assoc]
    rw [List.take_append_eq_append_take]
    rw [List.take_of_length_le (show (D.take i).length ≤ j - di + si.length by rw [hlenTi]; omega)]
    rw [List.drop_append_eq_append_drop]
    rw [List.drop_of_length_le
      (show (D.take i).length ≤ j - di + si.length + dj by rw [hlenTi]; omega)]
    simp only [hlenTi]
    rw [List.take_append_eq_append_take]
    rw [List.take_of_length_le (show si.length ≤ j - di + si.length - i by omega)]
    rw [(by omega : j - di + si.length - i - si.length = j - (i + di))]
    rw [List.drop_append_eq_append_drop]
    rw [List.drop_of_length_le (show si.length ≤ j - di + si.length + dj - i by omega)]
    rw [List.drop_drop]
    rw [(by omega : i + di + (j - di + si.length + dj - i - si.length) = j + dj)]
    simp [List.append_assoc]
  rw [hL, hR]

/-! ## Success characterization of the Tier C apply -/

theorem applyGo_isSome_iff (op : List CompositeOp.Step) :
    ∀ (doc : Doc) (index : Nat),
      (CompositeOp.applyGo doc index op).isSome ↔ CompositeOp.stepsOk doc index op = true := by
  induction op with
  | nil => intro doc index; simp [CompositeOp.applyGo, CompositeOp.stepsOk]
  | cons step rest ih =>
      intro doc index
      cases step with
      | Skip n => simpa [CompositeOp.applyGo, CompositeOp.stepsOk] using ih doc (index + n)
      | Insert s =>
          by_cases h : index ≤ doc.length <;>
            simp [CompositeOp.applyGo, CompositeOp.stepsOk, h, ih]
      | Delete n =>
          by_cases h : index + n ≤ doc.length <;>
            simp [CompositeOp.applyGo, CompositeOp.stepsOk, h, ih]

theorem stepsOk_of_inBounds (op : List CompositeOp.Step) :
    ∀ (doc : Doc) (index : Nat),
      CompositeOp.inBounds doc index op = true → CompositeOp.stepsOk doc index op = true := by
  induction op with
  | nil => intro doc index _; rfl
  | cons step rest ih =>
      intro doc index h
      cases step with
      | Skip n =>
          simp only [CompositeOp.inBounds, Bool.and_eq_true] at h
          exact ih doc (index + n) h.2
      | Insert s =>
          simp only [CompositeOp.inBounds, Bool.and_eq_true] at h
          simp only [CompositeOp.stepsOk, Bool.and_eq_true]
          exact ⟨h.1, ih _ _ h.2⟩
      | Delete n =>
          simp only [CompositeOp.inBounds, Bool.and_eq_true] at h
          simp only [CompositeOp.stepsOk, Bool.and_eq_true]
          exact ⟨h.1, ih _ _ h.2⟩

/-! ## Claim C1 -/

/-- C1: TP1 for the Tier A single-unit model — for every document and every
two operations valid against it, applying `op1` and then
`transform(op2, op1, Right)` yields the same final document as applying `op2`
and then `transform(op1, op2, Left)` (and both paths succeed). -/
theorem C1_transform_property_1 (doc : Doc) (op1 op2 : Lib.Op)
    (h1 : Lib.valid doc op1) (h2 : Lib.valid doc op2) :
    ((Lib.apply doc op1).bind fun d => Lib.apply d (Lib.transform op2 op1 .Right)) =
      ((Lib.apply doc op2).bind fun d => Lib.apply d (Lib.transform op1 op2 .Left)) ∧
    ((Lib.apply doc op1).bind fun d => Lib.apply d (Lib.transform op2 op1 .Right)).isSome := by
  cases op1 with
  | Insert p1 c1 =>
    simp only [Lib.valid] at h1
    cases op2 with
    | Insert p2 c2 =>
      simp only [Lib.valid] at h2
      rcases Nat.lt_trichotomy p2 p1 with hpp | hpp | hpp
      · -- p2 < p1
        rw [show Lib.transform (.Insert p2 c2) (.Insert p1 c1) .Right = .Insert p2 c2 by
            simp [Lib.transform, Nat.compare_eq_gt.mpr hpp],
          show Lib.transform (.Insert p1 c1) (.Insert p2 c2) .Left = .Insert (p1 + 1) c1 by
            simp [Lib.transform, Nat.compare_eq_lt.mpr hpp],
          apply_Insert_splice doc p1 c1 h1, apply_Insert_splice doc p2 c2 h2]
        simp only [Option.some_bind]
        rw [apply_Insert_splice _ p2 c2
            (by rw [splice_length doc p1 0 [c1] (by omega)]; simp; omega),
          apply_Insert_splice _ (p1 + 1) c1
            (by rw [splice_length doc p2 0 [c2] (by omega)]; simp; omega)]
        have hc := splice_splice_comm doc [c2] [c1] p2 0 p1 0 (by omega) (by omega)
        simp only [List.length_cons, List.length_nil, Nat.sub_zero, Nat.zero_add] at hc
        exact ⟨congrArg some hc, rfl⟩
      · -- p2 = p1
        subst hpp
        rw [show Lib.transform (.Insert p2 c2) (.Insert p2 c1) .Right = .Insert (p2 + 1) c2 by
            simp [Lib.transform, Nat.compare_eq_eq.mpr rfl],
          show Lib.transform (.Insert p2 c1) (.Insert p2 c2) .Left = .Insert p2 c1 by
            simp [Lib.transform, Nat.compare_eq_eq.mpr rfl],
          apply_Insert_splice doc p2 c1 h1, apply_Insert_splice doc p2 c2 h2]
        simp only [Option.some_bind]
        rw [apply_Insert_splice _ (p2 + 1) c2
            (by rw [splice_length doc p2 0 [c1] (by omega)]; simp; omega),
          apply_Insert_splice _ p2 c1
            (by rw [splice_length doc p2 0 [c2] (by omega)]; simp; omega)]
        have hc := splice_splice_comm doc [c1] [c2] p2 0 p2 0 (by omega) (by omega)
        simp only [List.length_cons, List.length_nil, Nat.sub_zero, Nat.zero_add] at hc
        exact ⟨congrArg some hc.symm, rfl⟩
      · -- p1 < p2
        rw [show Lib.transform (.Insert p2 c2) (.Insert p1 c1) .Right = .Insert (p2 + 1) c2 by
            simp [Lib.transform, Nat.compare_eq_lt.mpr hpp],
          show Lib.transform (.Insert p1 c1) (.Insert p2 c2) .Left = .Insert p1 c1 by
            simp [Lib.transform, Nat.compare_eq_gt.mpr hpp],
          apply_Insert_splice doc p1 c1 h1, apply_Insert_splice doc p2 c2 h2]
        simp only [Option.some_bind]
        rw [apply_Insert_splice _ (p2 + 1) c2
            (by rw [splice_length doc p1 0 [c1] (by omega)]; simp; omega),
          apply_Insert_splice _ p1 c1
            (by rw [splice_length doc p2 0 [c2] (by omega)]; simp; omega)]
        have hc := splice_splice_comm doc [c1] [c2] p1 0 p2 0 (by omega) (by omega)
        simp only [List.length_cons, List.length_nil, Nat.sub_zero, Nat.zero_add] at hc
        exact ⟨congrArg some hc.symm, rfl⟩
    | Delete p2 =>
      simp only [Lib.valid] at h2
      by_cases hpp : p2 < p1
      · rw [show Lib.transform (.Delete p2) (.Insert p1 c1) .Right = .Delete p2 by
            simp [Lib.transform, Nat.not_le.mpr hpp],
          show Lib.transform (.Insert p1 c1) (.Delete p2) .Left = .Insert (p1 - 1) c1 by
            simp [Lib.transform, hpp],
          apply_Insert_splice doc p1 c1 h1, apply_Delete_splice doc p2 h2]
        simp only [Option.some_bind]
        rw [apply_Delete_splice _ p2
            (by rw [splice_length doc p1 0 [c1] (by omega)]; simp; omega),
          apply_Insert_splice _ (p1 - 1) c1
            (by rw [splice_length doc p2 1 [] (by omega)]; simp; omega)]
        have hc := splice_splice_comm doc [] [c1] p2 1 p1 0 (by omega) (by omega)
        simp only [List.length_cons, List.length_nil, Nat.add_zero] at hc
        exact ⟨congrArg some hc, rfl⟩
      · rw [show Lib.transform (.Delete p2) (.Insert p1 c1) .Right = .Delete (p2 + 1) by
            simp [Lib.transform, Nat.le_of_not_lt hpp],
          show Lib.transform (.Insert p1 c1) (.Delete p2) .Left = .Insert p1 c1 by
            simp [Lib.transform, hpp],
          apply_Insert_splice doc p1 c1 h1, apply_Delete_splice doc p2 h2]
        simp only [Option.some_bind]
        rw [apply_Delete_splice _ (p2 + 1)
            (by rw [splice_length doc p1 0 [c1] (by omega)]; simp; omega),
          apply_Insert_splice _ p1 c1
            (by rw [splice_length doc p2 1 [] (by omega)]; simp; omega)]
        have hc := splice_splice_comm doc [c1] [] p1 0 p2 1 (by omega) (by omega)
        simp only [List.length_cons, List.length_nil, Nat.sub_zero, Nat.zero_add] at hc
        exact ⟨congrArg some hc.symm, rfl⟩
    | Noop =>
      constructor
      · simp [Lib.transform, Lib.apply, h1]
      · simp [Lib.transform, Lib.apply, h1]
  | Delete p1 =>
    simp only [Lib.valid] at h1
    cases op2 with
    | Insert p2 c2 =>
      simp only [Lib.valid] at h2
      by_cases hpp : p2 ≤ p1
      · rw [show Lib.transform (.Insert p2 c2) (.Delete p1) .Right = .Insert p2 c2 by
            simp [Lib.transform, Nat.not_lt.mpr hpp],
          show Lib.transform (.Delete p1) (.Insert p2 c2) .Left = .Delete (p1 + 1) by
            simp [Lib.transform, hpp],
          apply_Delete_splice doc p1 h1, apply_Insert_splice doc p2 c2 h2]
        simp only [Option.some_bind]
        rw [apply_Insert_splice _ p2 c2
            (by rw [splice_length doc p1 1 [] (by omega)]; simp; omega),
          apply_Delete_splice _ (p1 + 1)
            (by rw [splice_length doc p2 0 [c2] (by omega)]; simp; omega)]
        have hc := splice_splice_comm doc [c2] [] p2 0 p1 1 (by omega) (by omega)
        simp only [List.length_cons, List.length_nil, Nat.sub_zero, Nat.zero_add] at hc
        exact ⟨congrArg some hc, rfl⟩
      · rw [show Lib.transform (.Insert p2 c2) (.Delete p1) .Right = .Insert (p2 - 1) c2 by
            simp [Lib.transform, Nat.lt_of_not_le hpp],
          show Lib.transform (.Delete p1) (.Insert p2 c2) .Left = .Delete p1 by
            simp [Lib.transform, hpp],
          apply_Delete_splice doc p1 h1, apply_Insert_splice doc p2 c2 h2]
        simp only [Option.some_bind]
        rw [apply_Insert_splice _ (p2 - 1) c2
            (by rw [splice_length doc p1 1 [] (by omega)]; simp; omega),
          apply_Delete_splice _ p1
            (by rw [splice_length doc p2 0 [c2] (by omega)]; simp; omega)]
        have hc := splice_splice_comm doc [] [c2] p1 1 p2 0 (by omega) (by omega)
        simp only [List.length_cons, List.length_nil, Nat.add_zero] at hc
        exact ⟨congrArg some hc.symm, rfl⟩
    | Delete p2 =>
      simp only [Lib.valid] at h2
      rcases Nat.lt_trichotomy p2 p1 with hpp | hpp | hpp
      · rw [show Lib.transform (.Delete p2) (.Delete p1) .Right = .Delete p2 by
            simp [Lib.transform, Nat.compare_eq_gt.mpr hpp],
          show Lib.transform (.Delete p1) (.Delete p2) .Left = .Delete (p1 - 1) by
            simp [Lib.transform, Nat.compare_eq_lt.mpr hpp],
          apply_Delete_splice doc p1 h1, apply_Delete_splice doc p2 h2]
        simp only [Option.some_bind]
        rw [apply_Delete_splice _ p2
            (by rw [splice_length doc p1 1 [] (by omega)]; simp; omega),
          apply_Delete_splice _ (p1 - 1)
            (by rw [splice_length doc p2 1 [] (by omega)]; simp; omega)]
        have hc := splice_splice_comm doc [] [] p2 1 p1 1 (by omega) (by omega)
        simp only [List.length_nil, Nat.add_zero] at hc
        exact ⟨congrArg some hc, rfl⟩
      · subst hpp
        rw [show Lib.transform (.Delete p2) (.Delete p2) .Right = .Noop by
            simp [Lib.transform, Nat.compare_eq_eq.mpr rfl],
          show Lib.transform (.Delete p2) (.Delete p2) .Left = .Noop by
            simp [Lib.transform, Nat.compare_eq_eq.mpr rfl],
          apply_Delete_splice doc p2 h2]
        simp only [Option.some_bind]
        exact ⟨trivial, rfl⟩
      · rw [show Lib.transform (.Delete p2) (.Delete p1) .Right = .Delete (p2 - 1) by
            simp [Lib.transform, Nat.compare_eq_lt.mpr hpp],
          show Lib.transform (.Delete p1) (.Delete p2) .Left = .Delete p1 by
            simp [Lib.transform, Nat.compare_eq_gt.mpr hpp],
          apply_Delete_splice doc p1 h1, apply_Delete_splice doc p2 h2]
        simp only [Option.some_bind]
        rw [apply_Delete_splice _ (p2 - 1)
            (by rw [splice_length doc p1 1 [] (by omega)]; simp; omega),
          apply_Delete_splice _ p1
            (by rw [splice_length doc p2 1 [] (by omega)]; simp; omega)]
        have hc := splice_splice_comm doc [] [] p1 1 p2 1 (by omega) (by omega)
        simp only [List.length_nil, Nat.add_zero] at hc
        exact ⟨congrArg some hc.symm, rfl⟩
    | Noop =>
      constructor
      · simp [Lib.transform, Lib.apply, h1]
      · simp [Lib.transform, Lib.apply, h1]
  | Noop =>
    cases op2 with
    | Insert p2 c2 =>
      simp only [Lib.valid] at h2
      constructor
      · simp [Lib.transform, Lib.apply, h2]
      · simp [Lib.transform, Lib.apply, h2]
    | Delete p2 =>
      simp only [Lib.valid] at h2
      constructor
      · simp [Lib.transform, Lib.apply, h2]
      · simp [Lib.transform, Lib.apply, h2]
    | Noop => exact ⟨rfl, rfl⟩

/-- C1 witness: TP1 applied at `doc = b"abc"`, `op1 = Insert(1, 'x')`,
`op2 = Delete(1)`. -/
theorem C1_witness :
    Lib.valid [97, 98, 99] (.Insert 1 120) ∧ Lib.valid [97, 98, 99] (.Delete 1) ∧
    (((Lib.apply [97, 98, 99] (.Insert 1 120)).bind fun d =>
        Lib.apply d (Lib.transform (.Delete 1) (.Insert 1 120) .Right)) =
      ((Lib.apply [97, 98, 99] (.Delete 1)).bind fun d =>
        Lib.apply d (Lib.transform (.Insert 1 120) (.Delete 1) .Left)) ∧
    ((Lib.apply [97, 98, 99] (.Insert 1 120)).bind fun d =>
        Lib.apply d (Lib.transform (.Delete 1) (.Insert 1 120) .Right)).isSome) :=
  ⟨by decide, by decide,
    C1_transform_property_1 [97, 98, 99] (.Insert 1 120) (.Delete 1) (by decide) (by decide)⟩

/-! ## Claim C2 -/

/-- C2 (amended): `apply` succeeds on every in-bounds operation.  For Tier A
and Tier B, success holds exactly on in-bounds operations (`Insert` position
`≤ len`, `Delete` position `< len`).  For Tier C, every strictly in-bounds
step sequence succeeds, but success is exactly characterized by `stepsOk`,
which leaves `Skip` steps unchecked: an out-of-bounds `Insert` or `Delete`
step fails, while a `Skip` past the end of the document succeeds. -/
theorem C2_apply_totality :
    (∀ (doc : Doc) (op : Lib.Op), (Lib.apply doc op).isSome ↔ Lib.valid doc op) ∧
    (∀ (doc : Doc) (op : SingleOp.Op), (SingleOp.apply doc op).isSome ↔ SingleOp.valid doc op) ∧
    (∀ (doc : Doc) (op : List CompositeOp.Step),
      (CompositeOp.apply doc op).isSome ↔ CompositeOp.stepsOk doc 0 op = true) ∧
    (∀ (doc : Doc) (op : List CompositeOp.Step),
      CompositeOp.inBounds doc 0 op = true → (CompositeOp.apply doc op).isSome) := by
  refine ⟨fun doc op => ?_, fun doc op => ?_, fun doc op => applyGo_isSome_iff op doc 0,
    fun doc op h => (applyGo_isSome_iff op doc 0).mpr (stepsOk_of_inBounds op doc 0 h)⟩
  · cases op with
    | Insert index c => by_cases h : index ≤ doc.length <;> simp [Lib.apply, Lib.valid, h]
    | Delete index => by_cases h : index < doc.length <;> simp [Lib.apply, Lib.valid, h]
    | Noop => simp [Lib.apply, Lib.valid]
  · cases op with
    | Insert index d c => by_cases h : index ≤ doc.length <;> simp [SingleOp.apply, SingleOp.valid, h]
    | Delete index => by_cases h : index < doc.length <;> simp [SingleOp.apply, SingleOp.valid, h]
    | Noop => simp [SingleOp.apply, SingleOp.valid]

/-- C2 counterexample to the claim as stated: `[Skip(5)]` references offsets
past the end of the three-byte document `"abc"`, yet the Tier C `apply`
succeeds (no failure), because `Skip` merely adds to the cursor without any
bounds check. -/
theorem C2_counterexample :
    CompositeOp.inBounds [97, 98, 99] 0 [.Skip 5] = false ∧
    CompositeOp.apply [97, 98, 99] [.Skip 5] = some [97, 98, 99] := by decide

/-- C2 witness: a concrete strictly in-bounds chunked operation on which the
totality direction of `C2_apply_totality` applies. -/
theorem C2_witness :
    CompositeOp.inBounds [97, 98] 0 [.Skip 1, .Delete 1] = true ∧
    (CompositeOp.apply [97, 98] [.Skip 1, .Delete 1]).isSome :=
  ⟨by decide, C2_apply_totality.2.2.2 [97, 98] [.Skip 1, .Delete 1] (by decide)⟩

/-! ## Claim C3 -/

/-- C3 (amended): in the Tier C `apply`, a `Delete(n)` step removes the `n`
bytes starting at the current cursor and then *advances* the cursor by `n`
(the code performs `index += n` after `drain`), so a step following a
`Delete` does not operate on the bytes that slid into the freed space; in
particular `[Delete(1), Delete(1)]` applied to a two-byte document fails with
an out-of-range error instead of emptying the document. -/
theorem C3_delete_cursor :
    (∀ (doc : Doc) (index n : Nat) (rest : List CompositeOp.Step),
      CompositeOp.applyGo doc index (.Delete n :: rest) =
        if index + n ≤ doc.length then
          CompositeOp.applyGo (doc.take index ++ doc.drop (index + n)) (index + n) rest
        else none) ∧
    (∀ a b : Byte, CompositeOp.apply [a, b] [.Delete 1, .Delete 1] = none) :=
  ⟨fun _ _ _ _ => rfl, fun _ _ => rfl⟩

/-- C3 counterexample to the claim as stated: applying `[Delete(1), Delete(1)]`
to the two-byte document `"ab"` does not empty it — the cursor advances past
the byte that slid into the freed space, and the second delete is out of
range. -/
theorem C3_counterexample :
    CompositeOp.apply [97, 98] [.Delete 1, .Delete 1] = none ∧
    CompositeOp.apply [97, 98] [.Delete 1, .Delete 1] ≠ some [] := by decide

/-! ## Claim C4 -/

/-- C4 (amended): the Tier B transform of `op1 = Insert(p1, d1, c)` follows the
Tier A case table applied to the *effective* positions `p1 + d1` and `p2 + d2`
(not the bare positions) when `op2` is an `Insert`, with `d1` passed through
unchanged; when `op2 = Delete(p2)` with `p2 < p1` the result is
`Insert(p1 - 1, d1 + 1, c)` (the field incremented by the absorbed delete),
otherwise the operation is unchanged. -/
theorem C4_insert_transform (p1 d1 : Nat) (c : Byte) (op2 : SingleOp.Op) (side : Side) :
    SingleOp.transform (.Insert p1 d1 c) op2 side =
      match op2 with
      | .Insert p2 d2 _ =>
          .Insert
            (if p2 + d2 < p1 + d1 then p1 + 1
             else if p2 + d2 = p1 + d1 then
               match side with
               | .Left => p1
               | .Right => p1 + 1
             else p1) d1 c
      | .Delete p2 => if p2 < p1 then .Insert (p1 - 1) (d1 + 1) c else .Insert p1 d1 c
      | .Noop => .Insert p1 d1 c := by
  cases op2 with
  | Insert p2 d2 c2 =>
      rcases Nat.lt_trichotomy (p2 + d2) (p1 + d1) with h | h | h
      · simp [SingleOp.transform, Nat.compare_eq_lt.mpr h, h]
      · cases side <;>
          simp [SingleOp.transform, Nat.compare_eq_eq.mpr h, h, Nat.lt_irrefl,
            Nat.compare_eq_eq.mpr (rfl : p1 + d1 = p1 + d1)]
      · simp [SingleOp.transform, Nat.compare_eq_gt.mpr h, h, Nat.lt_asymm h,
          Nat.ne_of_gt h]
  | Delete p2 => by_cases h : p2 < p1 <;> simp [SingleOp.transform, h]
  | Noop => rfl

/-- C4 counterexample to the claim as stated: for `op1 = Insert(0, 5, 'x')` and
`op2 = Insert(1, 0, 'y')` the claim's table on bare positions (`p2 > p1`)
predicts `Insert(0, 5, 'x')`, but the code compares `p2 + d2 = 1` with
`p1 + d1 = 5` and shifts, producing `Insert(1, 5, 'x')`. -/
theorem C4_counterexample :
    SingleOp.transform (.Insert 0 5 120) (.Insert 1 0 121) .Left = .Insert 1 5 120 ∧
    SingleOp.transform (.Insert 0 5 120) (.Insert 1 0 121) .Left ≠ .Insert 0 5 120 := by
  decide

/-! ## Claim C5 -/

/-- C5: double-delete collapse — transforming `Delete(p)` against `Delete(p)`
yields `Noop` for either side, in both the Tier A and the Tier B transform
(in particular for `doc = b"abc"`, `op1 = Delete(1)`, `op2 = Delete(1)`,
which is the instance `p = 1`). -/
theorem C5_double_delete_collapse (p : Nat) (side : Side) :
    Lib.transform (.Delete p) (.Delete p) side = .Noop ∧
    SingleOp.transform (.Delete p) (.Delete p) side = .Noop := by
  constructor <;> simp [Lib.transform, SingleOp.transform, Nat.compare_eq_eq.mpr rfl]

/-! ## Claim C8 -/

/-- C8: identity laws — `transform(Noop, op, side) = Noop` and
`transform(op, Noop, side) = op`, in both the Tier A and the Tier B
transform. -/
theorem C8_identity_laws (op : Lib.Op) (op' : SingleOp.Op) (side : Side) :
    Lib.transform .Noop op side = .Noop ∧
    Lib.transform op .Noop side = op ∧
    SingleOp.transform .Noop op' side = .Noop ∧
    SingleOp.transform op' .Noop side = op' :=
  ⟨rfl, by cases op <;> rfl, rfl, by cases op' <;> rfl⟩

/-! ## Claim C6 -/

/-- C6: TP2 is violated by the Tier B model.  For the document `D = b"a"` and
the operations `op1 = Insert(0, 2, 'x')`, `op2 = Insert(1, 0, 'x')`,
`op3 = Insert(0, 0, 'x')` — all valid against `D` (insert positions `≤ len`)
— the two application orderings used by the source's three-operation test
both succeed and produce different documents: `b"xxxa"` versus `b"xaxx"`. -/
theorem C6_tp2_violated :
    (SingleOp.valid [97] (.Insert 0 2 120) ∧ SingleOp.valid [97] (.Insert 1 0 120) ∧
      SingleOp.valid [97] (.Insert 0 0 120)) ∧
    ((SingleOp.apply [97] (.Insert 0 2 120)).bind fun d =>
      (SingleOp.apply d (SingleOp.transform (.Insert 1 0 120) (.Insert 0 2 120) .Right)).bind
        fun d2 =>
          SingleOp.apply d2 (SingleOp.transform
            (SingleOp.transform (.Insert 0 0 120) (.Insert 0 2 120) .Right)
            (SingleOp.transform (.Insert 1 0 120) (.Insert 0 2 120) .Right) .Right))
      = some [120, 120, 120, 97] ∧
    ((SingleOp.apply [97] (.Insert 1 0 120)).bind fun d =>
      (SingleOp.apply d (SingleOp.transform (.Insert 0 2 120) (.Insert 1 0 120) .Left)).bind
        fun d2 =>
          SingleOp.apply d2 (SingleOp.transform
            (SingleOp.transform (.Insert 0 0 120) (.Insert 1 0 120) .Right)
            (SingleOp.transform (.Insert 0 2 120) (.Insert 1 0 120) .Left) .Right))
      = some [120, 97, 120, 120] ∧
    ([120, 120, 120, 97] : Doc) ≠ [120, 97, 120, 120] := by decide

/-! ## Claim C10 -/

/-- C10: for Tier B operations whose `observedDeletes` fields are both 0 (the
only values the source's generator produces), the Tier B transform agrees with
the Tier A transform under erasure of the field, and the result's
`observedDeletes` is 0 except that it is 1 exactly when `op1` is an `Insert`
and `op2` a `Delete` at a strictly smaller position. -/
theorem C10_erasure_agreement (o1 o2 : SingleOp.Op) (side : Side)
    (h1 : observed o1 = 0) (h2 : observed o2 = 0) :
    erase (SingleOp.transform o1 o2 side) = Lib.transform (erase o1) (erase o2) side ∧
    observed (SingleOp.transform o1 o2 side) =
      (match o1, o2 with
       | .Insert p1 _ _, .Delete p2 => if p2 < p1 then 1 else 0
       | _, _ => 0) := by
  cases o1 with
  | Insert p1 d1 c1 =>
      simp only [observed] at h1
      subst h1
      cases o2 with
      | Insert p2 d2 c2 =>
          simp only [observed] at h2
          subst h2
          rcases Nat.lt_trichotomy p2 p1 with h | h | h
          · simp [SingleOp.transform, Lib.transform, erase, observed,
              Nat.compare_eq_lt.mpr h, Nat.compare_eq_lt.mpr (by omega : p2 + 0 < p1 + 0)]
          · cases side <;>
              simp [SingleOp.transform, Lib.transform, erase, observed,
                Nat.compare_eq_eq.mpr h, Nat.compare_eq_eq.mpr (by omega : p2 + 0 = p1 + 0)]
          · simp [SingleOp.transform, Lib.transform, erase, observed,
              Nat.compare_eq_gt.mpr h, Nat.compare_eq_gt.mpr (by omega : p1 + 0 < p2 + 0)]
      | Delete p2 =>
          by_cases h : p2 < p1 <;>
            simp [SingleOp.transform, Lib.transform, erase, observed, h]
      | Noop => simp [SingleOp.transform, Lib.transform, erase, observed]
  | Delete p1 =>
      cases o2 with
      | Insert p2 d2 c2 =>
          by_cases h : p2 ≤ p1 <;>
            simp [SingleOp.transform, Lib.transform, erase, observed, h]
      | Delete p2 =>
          rcases Nat.lt_trichotomy p2 p1 with h | h | h
          · simp [SingleOp.transform, Lib.transform, erase, observed, Nat.compare_eq_lt.mpr h]
          · simp [SingleOp.transform, Lib.transform, erase, observed, Nat.compare_eq_eq.mpr h]
          · simp [SingleOp.transform, Lib.transform, erase, observed, Nat.compare_eq_gt.mpr h]
      | Noop => simp [SingleOp.transform, Lib.transform, erase, observed]
  | Noop =>
      cases o2 <;> simp [SingleOp.transform, Lib.transform, erase, observed]

/-- C10 witness: the agreement theorem applied at `op1 = Insert(1, 0, 'x')`,
`op2 = Delete(0)`, side `Left`. -/
theorem C10_witness :
    observed (.Insert 1 0 120) = 0 ∧ observed (.Delete 0 : SingleOp.Op) = 0 ∧
    (erase (SingleOp.transform (.Insert 1 0 120) (.Delete 0) .Left) =
        Lib.transform (erase (.Insert 1 0 120)) (erase (.Delete 0)) .Left ∧
      observed (SingleOp.transform (.Insert 1 0 120) (.Delete 0) .Left) =
        (match (.Insert 1 0 120 : SingleOp.Op), (.Delete 0 : SingleOp.Op) with
         | .Insert p1 _ _, .Delete p2 => if p2 < p1 then 1 else 0
         | _, _ => 0)) :=
  ⟨rfl, rfl, C10_erasure_agreement (.Insert 1 0 120) (.Delete 0) .Left rfl rfl⟩

/-! ## Claim C9 -/

/-- The Tier C transform succeeds exactly when the two operands' step lengths
imply the same base-document length. -/
theorem transform_isSome_iff (a b : List CompositeOp.Step) (side : Side) :
    (CompositeOp.transform a b side).isSome = true ↔
      CompositeOp.baseLen a = CompositeOp.baseLen b := by
  induction a, b, side using CompositeOp.transform.induct <;>
    (simp_all [CompositeOp.transform, CompositeOp.baseLen, Option.isSome_map']; try omega) <;>
    (split_ifs <;> (try simp_all [Option.isSome_map']) <;> omega)

/-- C9: the (spec-modelled) Tier C transform fails with `MalformedOperation`
(modelled as `none`) exactly when the operands' step lengths are mutually
inconsistent — one operand's `Skip`/`Delete` steps overrun the base-document
length implied by the other's steps — and it is total for well-formed inputs
generated against the same base document (both operands spanning the
document's length). -/
theorem C9_transform_malformed :
    (∀ (a b : List CompositeOp.Step) (side : Side),
      CompositeOp.transform a b side = none ↔
        CompositeOp.baseLen a ≠ CompositeOp.baseLen b) ∧
    (∀ (doc : Doc) (a b : List CompositeOp.Step) (side : Side),
      CompositeOp.baseLen a = doc.length → CompositeOp.baseLen b = doc.length →
      ∃ r, CompositeOp.transform a b side = some r) := by
  constructor
  · intro a b side
    constructor
    · intro h hbl
      have h2 := (transform_isSome_iff a b side).mpr hbl
      rw [h] at h2
      simp at h2
    · intro hne
      rcases heq : CompositeOp.transform a b side with _ | r
      · rfl
      · exact absurd ((transform_isSome_iff a b side).mp (by rw [heq]; rfl)) hne
  · intro doc a b side ha hb
    exact Option.isSome_iff_exists.mp ((transform_isSome_iff a b side).mpr (ha.trans hb.symm))

/-! ## Walk lemmas for the chunked transform, stated up to normalization -/

namespace CompositeOp

theorem nt_nil_nil (side : Side) : nt [] [] side = some [] := by
  simp [nt, transform, norm]

theorem nt_nil_ins (t : List Byte) (b : List Step) (side : Side) :
    nt [] (.Insert t :: b) side = (nt [] b side).map (consStep (.Skip t.length)) := by
  simp [nt, transform, Option.map_map, norm, Function.comp]
  rfl

theorem nt_ins_nil (s : List Byte) (a : List Step) (side : Side) :
    nt (.Insert s :: a) [] side = (nt a [] side).map (consStep (.Insert s)) := by
  simp [nt, transform, Option.map_map, norm, Function.comp]
  rfl

theorem nt_nil_skip_zero (b : List Step) (side : Side) :
    nt [] (.Skip 0 :: b) side = nt [] b side := by
  simp [nt, transform]

theorem nt_skip_nil_zero (a : List Step) (side : Side) :
    nt (.Skip 0 :: a) [] side = nt a [] side := by
  simp [nt, transform]

theorem nt_ins_ins_left (s t : List Byte) (a b : List Step) :
    nt (.Insert s :: a) (.Insert t :: b) .Left =
      (nt a (.Insert t :: b) .Left).map (consStep (.Insert s)) := by
  simp [nt, transform, Option.map_map, norm, Function.comp]
  rfl

theorem nt_ins_ins_right (s t : List Byte) (a b : List Step) :
    nt (.Insert s :: a) (.Insert t :: b) .Right =
      (nt (.Insert s :: a) b .Right).map (consStep (.Skip t.length)) := by
  simp [nt, transform, Option.map_map, norm, Function.comp]
  rfl

theorem nt_ins_skip (s : List Byte) (n : Nat) (a b : List Step) (side : Side) :
    nt (.Insert s :: a) (.Skip n :: b) side =
      (nt a (.Skip n :: b) side).map (consStep (.Insert s)) := by
  simp [nt, transform, Option.map_map, norm, Function.comp]
  rfl

theorem nt_ins_del (s : List Byte) (n : Nat) (a b : List Step) (side : Side) :
    nt (.Insert s :: a) (.Delete n :: b) side =
      (nt a (.Delete n :: b) side).map (consStep (.Insert s)) := by
  simp [nt, transform, Option.map_map, norm, Function.comp]
  rfl

theorem nt_skip_ins (m : Nat) (t : List Byte) (a b : List Step) (side : Side) :
    nt (.Skip m :: a) (.Insert t :: b) side =
      (nt (.Skip m :: a) b side).map (consStep (.Skip t.length)) := by
  simp [nt, transform, Option.map_map, norm, Function.comp]
  rfl

theorem nt_del_ins (m : Nat) (t : List Byte) (a b : List Step) (side : Side) :
    nt (.Delete m :: a) (.Insert t :: b) side =
      (nt (.Delete m :: a) b side).map (consStep (.Skip t.length)) := by
  simp [nt, transform, Option.map_map, norm, Function.comp]
  rfl

theorem nt_skip_skip_lt {m n : Nat} (h : m < n) (a b : List Step) (side : Side) :
    nt (.Skip m :: a) (.Skip n :: b) side =
      (nt a (.Skip (n - m) :: b) side).map (consStep (.Skip m)) := by
  simp [nt, transform, h, Option.map_map, norm, Function.comp]
  rfl

theorem nt_skip_skip_eq (m : Nat) (a b : List Step) (side : Side) :
    nt (.Skip m :: a) (.Skip m :: b) side =
      (nt a b side).map (consStep (.Skip m)) := by
  simp [nt, transform, Nat.lt_irrefl, Option.map_map, norm, Function.comp]
  rfl

theorem nt_skip_skip_gt {m n : Nat} (h : n < m) (a b : List Step) (side : Side) :
    nt (.Skip m :: a) (.Skip n :: b) side =
      (nt (.Skip (m - n) :: a) b side).map (consStep (.Skip n)) := by
  simp [nt, transform, h, Nat.lt_asymm h, Option.map_map, norm, Function.comp]
  rfl

theorem nt_skip_del_lt {m n : Nat} (h : m < n) (a b : List Step) (side : Side) :
    nt (.Skip m :: a) (.Delete n :: b) side = nt a (.Delete (n - m) :: b) side := by
  simp [nt, transform, h]

theorem nt_skip_del_eq (m : Nat) (a b : List Step) (side : Side) :
    nt (.Skip m :: a) (.Delete m :: b) side = nt a b side := by
  simp [nt, transform, Nat.lt_irrefl]

theorem nt_skip_del_gt {m n : Nat} (h : n < m) (a b : List Step) (side : Side) :
    nt (.Skip m :: a) (.Delete n :: b) side = nt (.Skip (m - n) :: a) b side := by
  simp [nt, transform, h, Nat.lt_asymm h]

theorem nt_del_skip_lt {m n : Nat} (h : m < n) (a b : List Step) (side : Side) :
    nt (.Delete m :: a) (.Skip n :: b) side =
      (nt a (.Skip (n - m) :: b) side).map (consStep (.Delete m)) := by
  simp [nt, transform, h, Option.map_map, norm, Function.comp]
  rfl

theorem nt_del_skip_eq (m : Nat) (a b : List Step) (side : Side) :
    nt (.Delete m :: a) (.Skip m :: b) side =
      (nt a b side).map (consStep (.Delete m)) := by
  simp [nt, transform, Nat.lt_irrefl, Option.map_map, norm, Function.comp]
  rfl

theorem nt_del_del_eq (m : Nat) (a b : List Step) (side : Side) :
    nt (.Delete m :: a) (.Delete m :: b) side = nt a b side := by
  simp [nt, transform, Nat.lt_irrefl]

/-! ### Coalescing lemmas for `consStep` -/

theorem consStep_skip_skip (m n : Nat) (acc : List Step) :
    consStep (.Skip m) (consStep (.Skip n) acc) = consStep (.Skip (m + n)) acc := by
  cases m with
  | zero => simp [consStep]
  | succ m =>
      cases n with
      | zero => simp [consStep]
      | succ n =>
          cases acc with
          | nil => simp [consStep]; omega
          | cons s acc2 =>
              cases s with
              | Skip k => simp [consStep]; omega
              | Insert t => simp [consStep]; omega
              | Delete k => simp [consStep]; omega

theorem consStep_del_del (m n : Nat) (acc : List Step) :
    consStep (.Delete m) (consStep (.Delete n) acc) = consStep (.Delete (m + n)) acc := by
  cases m with
  | zero => simp [consStep]
  | succ m =>
      cases n with
      | zero => simp [consStep]
      | succ n =>
          cases acc with
          | nil => simp [consStep]; omega
          | cons s acc2 =>
              cases s with
              | Skip k => simp [consStep]; omega
              | Insert t => simp [consStep]; omega
              | Delete k => simp [consStep]; omega

theorem consStep_skip_zero (acc : List Step) : consStep (.Skip 0) acc = acc := rfl

theorem consStep_del_zero (acc : List Step) : consStep (.Delete 0) acc = acc := rfl

/-! ### Fully-consumed tails of the lockstep walk -/

theorem nt_tail_skip_skip (M : Nat) (side : Side) :
    nt [.Skip M] [.Skip M] side = some (consStep (.Skip M) []) := by
  rw [nt_skip_skip_eq, nt_nil_nil]
  simp

theorem nt_tail_skip_del (M R : Nat) (side : Side) (h : M = 1 + R) :
    nt [.Skip M] [.Delete 1, .Skip R] side = some (consStep (.Skip R) []) := by
  rcases Nat.lt_or_ge 1 M with hM | hM
  · rw [nt_skip_del_gt hM, (show M - 1 = R by omega), nt_tail_skip_skip]
  · rw [(show M = 1 by omega), (show R = 0 by omega), nt_skip_del_eq,
      nt_nil_skip_zero, nt_nil_nil]
    rfl

theorem nt_tail_skip_ins (M : Nat) (t : List Byte) (side : Side) :
    nt [.Skip M] [.Insert t, .Skip M] side =
      some (consStep (.Skip t.length) (consStep (.Skip M) [])) := by
  rw [nt_skip_ins, nt_tail_skip_skip]
  simp

theorem nt_tail_ins_skip (s : List Byte) (M : Nat) (side : Side) :
    nt [.Insert s, .Skip M] [.Skip M] side =
      some (consStep (.Insert s) (consStep (.Skip M) [])) := by
  rw [nt_ins_skip, nt_tail_skip_skip]
  simp

theorem nt_tail_ins_nil (s : List Byte) (side : Side) :
    nt [.Insert s, .Skip 0] [] side = some (consStep (.Insert s) []) := by
  rw [nt_ins_nil, nt_skip_nil_zero, nt_nil_nil]
  simp

theorem nt_tail_ins_del (s : List Byte) (M R : Nat) (side : Side) (h : M = 1 + R) :
    nt [.Insert s, .Skip M] [.Delete 1, .Skip R] side =
      some (consStep (.Insert s) (consStep (.Skip R) [])) := by
  rw [nt_ins_del, nt_tail_skip_del M R side h]
  simp

theorem nt_tail_del_skip (M N : Nat) (side : Side) (h : N = 1 + M) :
    nt [.Delete 1, .Skip M] [.Skip N] side =
      some (consStep (.Delete 1) (consStep (.Skip M) [])) := by
  rcases Nat.lt_or_ge 1 N with hN | hN
  · rw [nt_del_skip_lt hN, (show N - 1 = M by omega), nt_tail_skip_skip]
    simp
  · rw [(show N = 1 by omega), (show M = 0 by omega), nt_del_skip_eq,
      nt_skip_nil_zero, nt_nil_nil]
    simp
    rfl

theorem nt_tail_del_del (M : Nat) (side : Side) :
    nt [.Delete 1, .Skip M] [.Delete 1, .Skip M] side = some (consStep (.Skip M) []) := by
  rw [nt_del_del_eq, nt_tail_skip_skip]

theorem nt_tail_del_ins (M : Nat) (t : List Byte) (R : Nat) (side : Side) (h : R = 1 + M) :
    nt [.Delete 1, .Skip M] [.Insert t, .Skip R] side =
      some (consStep (.Skip t.length) (consStep (.Delete 1) (consStep (.Skip M) []))) := by
  rw [nt_del_ins, nt_tail_del_skip M R side h]
  simp

theorem nt_tail_nil_ins (t : List Byte) (side : Side) :
    nt [] [.Insert t, .Skip 0] side = some (consStep (.Skip t.length) []) := by
  rw [nt_nil_ins, nt_nil_skip_zero, nt_nil_nil]
  simp

theorem nt_tail_ins_ins_left (s t : List Byte) (M : Nat) :
    nt [.Insert s, .Skip M] [.Insert t, .Skip M] .Left =
      some (consStep (.Insert s) (consStep (.Skip t.length) (consStep (.Skip M) []))) := by
  rw [nt_ins_ins_left, nt_tail_skip_ins]
  simp

theorem nt_tail_ins_ins_right (s t : List Byte) (M : Nat) :
    nt [.Insert s, .Skip M] [.Insert t, .Skip M] .Right =
      some (consStep (.Skip t.length) (consStep (.Insert s) (consStep (.Skip M) []))) := by
  rw [nt_ins_ins_right, nt_tail_ins_skip]
  simp

end CompositeOp

/-- C9 witness: totality applied to two well-formed operations spanning the
two-byte document `b"ab"`. -/
theorem C9_witness :
    CompositeOp.baseLen [.Skip 1, .Delete 1] = ([97, 98] : Doc).length ∧
    CompositeOp.baseLen [.Insert [120], .Skip 2] = ([97, 98] : Doc).length ∧
    ∃ r, CompositeOp.transform [.Skip 1, .Delete 1] [.Insert [120], .Skip 2] .Left = some r :=
  ⟨rfl, rfl,
    C9_transform_malformed.2 [97, 98] [.Skip 1, .Delete 1] [.Insert [120], .Skip 2] .Left rfl rfl⟩


open CompositeOp in
theorem nt_encode_eq (doc : Doc) (op1 op2 : Lib.Op) (side : Side)
    (h1 : Lib.valid doc op1) (h2 : Lib.valid doc op2) :
    nt (encode op1 doc.length) (encode op2 doc.length) side =
      some (norm (encode (Lib.transform op1 op2 side) (resultLen doc.length op2))) := by
  set L := doc.length with hL
  cases op1 with
  | Insert p1 c1 =>
    simp only [Lib.valid, hL] at h1
    cases op2 with
    | Insert p2 c2 =>
      simp only [Lib.valid, hL] at h2
      rcases Nat.lt_trichotomy p1 p2 with hpp | hpp | hpp
      · -- p1 < p2: result Insert p1 c1
        rw [show Lib.transform (.Insert p1 c1) (.Insert p2 c2) side = .Insert p1 c1 by
          cases side <;> simp [Lib.transform, Nat.compare_eq_gt.mpr hpp]]
        simp only [encode, resultLen]
        rcases Nat.lt_or_ge p2 L with hpL | hpL
        · rw [nt_skip_skip_lt hpp, nt_ins_skip,
            nt_skip_skip_gt (show p2 - p1 < L - p1 by omega),
            (show L - p1 - (p2 - p1) = L - p2 by omega), nt_tail_skip_ins]
          simp only [Option.map_some', CompositeOp.norm, List.length_cons, List.length_nil,
            Nat.zero_add, consStep_skip_zero]
          rw [consStep_skip_skip, consStep_skip_skip,
            (show p2 - p1 + 1 + (L - p2) = L + 1 - p1 by omega)]
        · have hp2L : p2 = L := by omega
          rw [hp2L, Nat.sub_self, nt_skip_skip_lt (show p1 < L by omega), nt_ins_skip,
            nt_skip_skip_eq, nt_tail_nil_ins]
          simp only [Option.map_some', CompositeOp.norm, List.length_cons, List.length_nil,
            Nat.zero_add, consStep_skip_zero]
          rw [consStep_skip_skip, (show L - p1 + 1 = L + 1 - p1 by omega)]
      · -- p1 = p2
        subst hpp
        cases side with
        | Left =>
          rw [show Lib.transform (.Insert p1 c1) (.Insert p1 c2) .Left = .Insert p1 c1 by
            simp [Lib.transform, Nat.compare_eq_eq.mpr rfl]]
          simp only [encode, resultLen]
          rw [nt_skip_skip_eq, nt_tail_ins_ins_left]
          simp only [Option.map_some', CompositeOp.norm, List.length_cons, List.length_nil,
            Nat.zero_add, consStep_skip_zero]
          rw [consStep_skip_skip, (show 1 + (L - p1) = L + 1 - p1 by omega)]
        | Right =>
          rw [show Lib.transform (.Insert p1 c1) (.Insert p1 c2) .Right = .Insert (p1 + 1) c1 by
            simp [Lib.transform, Nat.compare_eq_eq.mpr rfl]]
          simp only [encode, resultLen]
          rw [nt_skip_skip_eq, nt_tail_ins_ins_right]
          simp only [Option.map_some', CompositeOp.norm, List.length_cons, List.length_nil,
            Nat.zero_add, consStep_skip_zero]
          rw [consStep_skip_skip, (show L + 1 - (p1 + 1) = L - p1 by omega)]
      · -- p2 < p1: result Insert (p1+1) c1
        rw [show Lib.transform (.Insert p1 c1) (.Insert p2 c2) side = .Insert (p1 + 1) c1 by
          cases side <;> simp [Lib.transform, Nat.compare_eq_lt.mpr hpp]]
        simp only [encode, resultLen]
        rcases Nat.lt_or_ge p1 L with hpL | hpL
        · rw [nt_skip_skip_gt hpp, nt_skip_ins,
            nt_skip_skip_lt (show p1 - p2 < L - p2 by omega),
            (show L - p2 - (p1 - p2) = L - p1 by omega), nt_tail_ins_skip]
          simp only [Option.map_some', CompositeOp.norm, List.length_cons, List.length_nil,
            Nat.zero_add, consStep_skip_zero]
          rw [consStep_skip_skip, consStep_skip_skip,
            (show p2 + 1 + (p1 - p2) = p1 + 1 by omega),
            (show L + 1 - (p1 + 1) = L - p1 by omega)]
        · have hp1L : p1 = L := by omega
          rw [hp1L, Nat.sub_self, nt_skip_skip_gt (show p2 < L by omega), nt_skip_ins,
            nt_skip_skip_eq, nt_tail_ins_nil]
          simp only [Option.map_some', CompositeOp.norm, List.length_cons, List.length_nil,
            Nat.zero_add, consStep_skip_zero]
          rw [consStep_skip_skip, consStep_skip_skip,
            (show p2 + 1 + (L - p2) = L + 1 by omega),
            (show L + 1 - (L + 1) = 0 by omega)]
          rw [show consStep (.Skip 0) ([] : List Step) = [] from rfl]
    | Delete p2 =>
      simp only [Lib.valid, hL] at h2
      rcases Nat.lt_trichotomy p1 p2 with hpp | hpp | hpp
      · -- p1 < p2: result Insert p1 c1
        rw [show Lib.transform (.Insert p1 c1) (.Delete p2) side = .Insert p1 c1 by
          simp [Lib.transform, (show ¬ p2 < p1 by omega)]]
        simp only [encode, resultLen]
        rw [nt_skip_skip_lt hpp, nt_ins_skip,
          nt_skip_skip_gt (show p2 - p1 < L - p1 by omega),
          (show L - p1 - (p2 - p1) = L - p2 by omega),
          nt_tail_skip_del (L - p2) (L - 1 - p2) side (by omega)]
        simp only [Option.map_some', CompositeOp.norm, List.length_cons, List.length_nil,
          Nat.zero_add, consStep_skip_zero]
        rw [consStep_skip_skip, (show p2 - p1 + (L - 1 - p2) = L - 1 - p1 by omega)]
      · -- p1 = p2: result Insert p1 c1
        subst hpp
        rw [show Lib.transform (.Insert p1 c1) (.Delete p1) side = .Insert p1 c1 by
          simp [Lib.transform]]
        simp only [encode, resultLen]
        rw [nt_skip_skip_eq, nt_tail_ins_del [c1] (L - p1) (L - 1 - p1) side (by omega)]
        simp only [Option.map_some', CompositeOp.norm, List.length_cons, List.length_nil,
          Nat.zero_add, consStep_skip_zero]
      · -- p2 < p1: result Insert (p1-1) c1
        rw [show Lib.transform (.Insert p1 c1) (.Delete p2) side = .Insert (p1 - 1) c1 by
          simp [Lib.transform, hpp]]
        simp only [encode, resultLen]
        rcases Nat.lt_or_ge 1 (p1 - p2) with hd | hd
        · rcases Nat.lt_or_ge p1 L with hpL | hpL
          · rw [nt_skip_skip_gt hpp, nt_skip_del_gt hd,
              nt_skip_skip_lt (show p1 - p2 - 1 < L - 1 - p2 by omega),
              (show L - 1 - p2 - (p1 - p2 - 1) = L - p1 by omega), nt_tail_ins_skip]
            simp only [Option.map_some', CompositeOp.norm, List.length_cons, List.length_nil,
              Nat.zero_add, consStep_skip_zero]
            rw [consStep_skip_skip, (show p2 + (p1 - p2 - 1) = p1 - 1 by omega),
              (show L - 1 - (p1 - 1) = L - p1 by omega)]
          · have hp1L : p1 = L := by omega
            rw [nt_skip_skip_gt hpp, nt_skip_del_gt hd,
              (show L - 1 - p2 = p1 - p2 - 1 by omega),
              (show L - p1 = 0 by omega), nt_skip_skip_eq, nt_tail_ins_nil]
            simp only [Option.map_some', CompositeOp.norm, List.length_cons, List.length_nil,
              Nat.zero_add, consStep_skip_zero]
            rw [consStep_skip_skip, (show p2 + (p1 - p2 - 1) = p1 - 1 by omega),
              (show L - 1 - (p1 - 1) = 0 by omega)]
            rw [show consStep (.Skip 0) ([] : List Step) = [] from rfl]
        · -- p1 = p2 + 1
          rw [nt_skip_skip_gt hpp, (show p1 - p2 = 1 by omega), nt_skip_del_eq,
            nt_ins_skip, (show L - 1 - p2 = L - p1 by omega), nt_tail_skip_skip]
          simp only [Option.map_some', CompositeOp.norm, List.length_cons, List.length_nil,
            Nat.zero_add, consStep_skip_zero]
          rw [(show p2 = p1 - 1 by omega), (show L - 1 - (p1 - 1) = L - p1 by omega)]
    | Noop =>
      rw [show Lib.transform (.Insert p1 c1) .Noop side = .Insert p1 c1 from rfl]
      simp only [encode, resultLen]
      rcases Nat.lt_or_ge p1 L with hpL | hpL
      · rw [nt_skip_skip_lt hpL, nt_tail_ins_skip]
        simp only [Option.map_some', CompositeOp.norm, List.length_cons, List.length_nil,
          Nat.zero_add, consStep_skip_zero]
      · have hp1L : p1 = L := by omega
        rw [hp1L, Nat.sub_self, nt_skip_skip_eq, nt_tail_ins_nil]
        simp only [Option.map_some', CompositeOp.norm, List.length_cons, List.length_nil,
          Nat.zero_add, consStep_skip_zero]
  | Delete p1 =>
    simp only [Lib.valid, hL] at h1
    cases op2 with
    | Insert p2 c2 =>
      simp only [Lib.valid, hL] at h2
      rcases Nat.lt_trichotomy p1 p2 with hpp | hpp | hpp
      · -- p1 < p2: result Delete p1
        rw [show Lib.transform (.Delete p1) (.Insert p2 c2) side = .Delete p1 by
          simp [Lib.transform, (show ¬ p2 ≤ p1 by omega)]]
        simp only [encode, resultLen]
        rcases Nat.lt_or_ge 1 (p2 - p1) with hd | hd
        · rcases Nat.lt_or_ge p2 L with hpL | hpL
          · rw [nt_skip_skip_lt hpp, nt_del_skip_lt hd,
              nt_skip_skip_gt (show p2 - p1 - 1 < L - 1 - p1 by omega),
              (show L - 1 - p1 - (p2 - p1 - 1) = L - p2 by omega), nt_tail_skip_ins]
            simp only [Option.map_some', CompositeOp.norm, List.length_cons, List.length_nil,
              Nat.zero_add, consStep_skip_zero]
            rw [consStep_skip_skip, consStep_skip_skip,
              (show p2 - p1 - 1 + 1 + (L - p2) = L - p1 by omega),
              (show L + 1 - 1 - p1 = L - p1 by omega)]
          · rw [nt_skip_skip_lt hpp, nt_del_skip_lt hd,
              (show p2 - p1 - 1 = L - 1 - p1 by omega),
              (show L - p2 = 0 by omega), nt_skip_skip_eq, nt_tail_nil_ins]
            simp only [Option.map_some', CompositeOp.norm, List.length_cons, List.length_nil,
              Nat.zero_add, consStep_skip_zero]
            rw [consStep_skip_skip, (show L - 1 - p1 + 1 = L - p1 by omega),
              (show L + 1 - 1 - p1 = L - p1 by omega)]
        · -- p2 = p1 + 1
          rw [nt_skip_skip_lt hpp, (show p2 - p1 = 1 by omega), nt_del_skip_eq,
            (show L - p2 = L - 1 - p1 by omega), nt_tail_skip_ins]
          simp only [Option.map_some', CompositeOp.norm, List.length_cons, List.length_nil,
            Nat.zero_add, consStep_skip_zero]
          rw [consStep_skip_skip, (show 1 + (L - 1 - p1) = L - p1 by omega),
            (show L + 1 - 1 - p1 = L - p1 by omega)]
      · -- p1 = p2: result Delete (p1+1)
        subst hpp
        rw [show Lib.transform (.Delete p1) (.Insert p1 c2) side = .Delete (p1 + 1) by
          simp [Lib.transform]]
        simp only [encode, resultLen]
        rw [nt_skip_skip_eq, nt_tail_del_ins (L - 1 - p1) [c2] (L - p1) side (by omega)]
        simp only [Option.map_some', CompositeOp.norm, List.length_cons, List.length_nil,
          Nat.zero_add, consStep_skip_zero]
        rw [consStep_skip_skip, (show L + 1 - 1 - (p1 + 1) = L - 1 - p1 by omega)]
      · -- p2 < p1: result Delete (p1+1)
        rw [show Lib.transform (.Delete p1) (.Insert p2 c2) side = .Delete (p1 + 1) by
          simp [Lib.transform, (show p2 ≤ p1 by omega)]]
        simp only [encode, resultLen]
        rw [nt_skip_skip_gt hpp, nt_skip_ins,
          nt_skip_skip_lt (show p1 - p2 < L - p2 by omega),
          (show L - p2 - (p1 - p2) = L - p1 by omega),
          nt_tail_del_skip (L - 1 - p1) (L - p1) side (by omega)]
        simp only [Option.map_some', CompositeOp.norm, List.length_cons, List.length_nil,
          Nat.zero_add, consStep_skip_zero]
        rw [consStep_skip_skip, consStep_skip_skip,
          (show p2 + 1 + (p1 - p2) = p1 + 1 by omega),
          (show L + 1 - 1 - (p1 + 1) = L - 1 - p1 by omega)]
    | Delete p2 =>
      simp only [Lib.valid, hL] at h2
      rcases Nat.lt_trichotomy p1 p2 with hpp | hpp | hpp
      · -- p1 < p2: result Delete p1
        rw [show Lib.transform (.Delete p1) (.Delete p2) side = .Delete p1 by
          simp [Lib.transform, Nat.compare_eq_gt.mpr hpp]]
        simp only [encode, resultLen]
        rcases Nat.lt_or_ge 1 (p2 - p1) with hd | hd
        · rw [nt_skip_skip_lt hpp, nt_del_skip_lt hd,
            nt_skip_skip_gt (show p2 - p1 - 1 < L - 1 - p1 by omega),
            (show L - 1 - p1 - (p2 - p1 - 1) = L - p2 by omega),
            nt_tail_skip_del (L - p2) (L - 1 - p2) side (by omega)]
          simp only [Option.map_some', CompositeOp.norm, List.length_cons, List.length_nil,
            Nat.zero_add, consStep_skip_zero]
          rw [consStep_skip_skip, (show p2 - p1 - 1 + (L - 1 - p2) = L - 1 - 1 - p1 by omega)]
        · -- p2 = p1 + 1
          rw [nt_skip_skip_lt hpp, (show p2 - p1 = 1 by omega), nt_del_skip_eq,
            nt_tail_skip_del (L - 1 - p1) (L - 1 - p2) side (by omega)]
          simp only [Option.map_some', CompositeOp.norm, List.length_cons, List.length_nil,
            Nat.zero_add, consStep_skip_zero]
          rw [(show L - 1 - p2 = L - 1 - 1 - p1 by omega)]
      · -- p1 = p2: result Noop
        subst hpp
        rw [show Lib.transform (.Delete p1) (.Delete p1) side = .Noop by
          simp [Lib.transform, Nat.compare_eq_eq.mpr rfl]]
        simp only [encode, resultLen]
        rw [nt_skip_skip_eq, nt_tail_del_del]
        simp only [Option.map_some', CompositeOp.norm, List.length_cons, List.length_nil,
          Nat.zero_add, consStep_skip_zero]
        rw [consStep_skip_skip, (show p1 + (L - 1 - p1) = L - 1 by omega)]
      · -- p2 < p1: result Delete (p1-1)
        rw [show Lib.transform (.Delete p1) (.Delete p2) side = .Delete (p1 - 1) by
          simp [Lib.transform, Nat.compare_eq_lt.mpr hpp]]
        simp only [encode, resultLen]
        rcases Nat.lt_or_ge 1 (p1 - p2) with hd | hd
        · rw [nt_skip_skip_gt hpp, nt_skip_del_gt hd,
            nt_skip_skip_lt (show p1 - p2 - 1 < L - 1 - p2 by omega),
            (show L - 1 - p2 - (p1 - p2 - 1) = L - p1 by omega),
            nt_tail_del_skip (L - 1 - p1) (L - p1) side (by omega)]
          simp only [Option.map_some', CompositeOp.norm, List.length_cons, List.length_nil,
            Nat.zero_add, consStep_skip_zero]
          rw [consStep_skip_skip, (show p2 + (p1 - p2 - 1) = p1 - 1 by omega),
            (show L - 1 - 1 - (p1 - 1) = L - 1 - p1 by omega)]
        · -- p1 = p2 + 1
          rw [nt_skip_skip_gt hpp, (show p1 - p2 = 1 by omega), nt_skip_del_eq,
            (show L - 1 - p2 = L - p1 by omega),
            nt_tail_del_skip (L - 1 - p1) (L - p1) side (by omega)]
          simp only [Option.map_some', CompositeOp.norm, List.length_cons, List.length_nil,
            Nat.zero_add, consStep_skip_zero]
          rw [(show L - 1 - 1 - (p1 - 1) = L - 1 - p1 by omega), (show p2 = p1 - 1 by omega)]
    | Noop =>
      rw [show Lib.transform (.Delete p1) .Noop side = .Delete p1 from rfl]
      simp only [encode, resultLen]
      rw [nt_skip_skip_lt h1, nt_tail_del_skip (L - 1 - p1) (L - p1) side (by omega)]
      simp only [Option.map_some', CompositeOp.norm, List.length_cons, List.length_nil,
        Nat.zero_add, consStep_skip_zero]
  | Noop =>
    rw [show Lib.transform .Noop op2 side = .Noop from rfl]
    cases op2 with
    | Insert p2 c2 =>
      simp only [Lib.valid, hL] at h2
      simp only [encode, resultLen]
      rcases Nat.lt_or_ge p2 L with hpL | hpL
      · rw [nt_skip_skip_gt hpL, nt_tail_skip_ins]
        simp only [Option.map_some', CompositeOp.norm, List.length_cons, List.length_nil,
          Nat.zero_add, consStep_skip_zero]
        rw [consStep_skip_skip, consStep_skip_skip,
          (show p2 + 1 + (L - p2) = L + 1 by omega)]
      · have hp2L : p2 = L := by omega
        rw [hp2L, Nat.sub_self, nt_skip_skip_eq, nt_tail_nil_ins]
        simp only [Option.map_some', CompositeOp.norm, List.length_cons, List.length_nil,
          Nat.zero_add, consStep_skip_zero]
        rw [consStep_skip_skip]
    | Delete p2 =>
      simp only [Lib.valid, hL] at h2
      simp only [encode, resultLen]
      rw [nt_skip_skip_gt h2, nt_tail_skip_del (L - p2) (L - 1 - p2) side (by omega)]
      simp only [Option.map_some', CompositeOp.norm, List.length_cons, List.length_nil,
        Nat.zero_add, consStep_skip_zero]
      rw [consStep_skip_skip, (show p2 + (L - 1 - p2) = L - 1 by omega)]
    | Noop =>
      simp only [encode, resultLen]
      rw [nt_tail_skip_skip]
      simp only [CompositeOp.norm]


/-- C7 (spec-modelled): tier equivalence — for every pair of single-element
chunked operations valid against the same document (each encoding one `Insert`
of a one-byte chunk, one `Delete(1)`, or a no-op, as a spanning step sequence)
and either side, the Tier C transform modelled from the spec succeeds and its
result equals — up to normalization of zero-length and adjacent steps — the
Tier A transform's result on the corresponding single-unit operations,
restated as a step sequence over the document produced by `op2`. -/
theorem C7_tier_equivalence (doc : Doc) (op1 op2 : Lib.Op) (side : Side)
    (h1 : Lib.valid doc op1) (h2 : Lib.valid doc op2) :
    ∃ r, CompositeOp.transform (CompositeOp.encode op1 doc.length)
        (CompositeOp.encode op2 doc.length) side = some r ∧
      CompositeOp.norm r =
        CompositeOp.norm (CompositeOp.encode (Lib.transform op1 op2 side)
          (CompositeOp.resultLen doc.length op2)) := by
  have key := nt_encode_eq doc op1 op2 side h1 h2
  simp only [CompositeOp.nt] at key
  exact Option.map_eq_some'.mp key

/-- C7 witness: the tier-equivalence theorem applied at `doc = b"abc"`,
`op1 = Insert(1, 'x')`, `op2 = Delete(2)`, side `Right`. -/
theorem C7_witness :
    Lib.valid [97, 98, 99] (.Insert 1 120) ∧ Lib.valid [97, 98, 99] (.Delete 2) ∧
    ∃ r, CompositeOp.transform
        (CompositeOp.encode (.Insert 1 120) ([97, 98, 99] : Doc).length)
        (CompositeOp.encode (.Delete 2) ([97, 98, 99] : Doc).length) .Right = some r ∧
      CompositeOp.norm r =
        CompositeOp.norm (CompositeOp.encode
          (Lib.transform (.Insert 1 120) (.Delete 2) .Right)
          (CompositeOp.resultLen ([97, 98, 99] : Doc).length (.Delete 2))) :=
  ⟨by decide, by decide,
    C7_tier_equivalence [97, 98, 99] (.Insert 1 120) (.Delete 2) .Right (by decide) (by decide)⟩

end OT
